import Mathlib

/-!
Verification of the racegame core: a shallow embedding in Lean 4 of the
2D top-down racing game's vector math, collision geometry, physics engine,
lap/checkpoint tracker and game-loop step, translated from the TypeScript
source (`src/core/types/*.ts`, `src/core/game/*.ts`, `src/core/physics/*`).

Modelling conventions:
- JavaScript `number` (IEEE double) is modelled as the exact rationals `ℚ`;
  numeric literals such as `0.001` and `1e-10` are read exactly.
- The ambient `Math.cos` / `Math.sin` / `Math.sqrt` library functions are
  an explicit parameter record `MathFuns`, so every definition stays a pure,
  executable function of its arguments (mirroring that the source calls out
  to an external math library).  Theorems that need real-trigonometry facts
  take them as hypotheses (e.g. `cos² + sin² = 1`).
- `performance.now()` reads are passed in as an explicit `now : ℚ`
  parameter, exactly where the source reads the clock.
- TypeScript `Set<number>` becomes `Finset ℕ`; `Partial<T>` update records
  become structures of `Option` fields merged with `Option.getD`, mirroring
  the `??` fallbacks in the source.
- The field `end` of `LineSegment` is renamed `endp` (`end` is a Lean
  keyword); all other names follow the source.
-/

/-- External math library functions used by the source via `Math.*`. -/
structure MathFuns where
  cos : ℚ → ℚ
  sin : ℚ → ℚ
  sqrt : ℚ → ℚ

/-- Planar vector (`src/core/types/vector.ts`, interface `Vec2`). -/
@[ext] structure Vec2 where
  x : ℚ
  y : ℚ
deriving DecidableEq

/-- Port of `add` from vector.ts: componentwise sum. -/
def add (a b : Vec2) : Vec2 := ⟨a.x + b.x, a.y + b.y⟩

/-- Port of `subtract` from vector.ts: componentwise difference `a - b`. -/
def subtract (a b : Vec2) : Vec2 := ⟨a.x - b.x, a.y - b.y⟩

/-- Port of `scale` from vector.ts: multiply a vector by a scalar. -/
def scale (v : Vec2) (scalar : ℚ) : Vec2 := ⟨v.x * scalar, v.y * scalar⟩

/-- Port of `lengthSquared` from vector.ts. -/
def lengthSquared (v : Vec2) : ℚ := v.x * v.x + v.y * v.y

/-- Port of `dot` from vector.ts. -/
def dot (a b : Vec2) : ℚ := a.x * b.x + a.y * b.y

/-- Port of `cross` from vector.ts: scalar z-component of the 2D cross product. -/
def cross (a b : Vec2) : ℚ := a.x * b.y - a.y * b.x

/-- Port of `fromAngle` from vector.ts: unit vector from an angle, via the external
`Math.cos` / `Math.sin` (here `math.cos` / `math.sin`). -/
def fromAngle (math : MathFuns) (angle : ℚ) : Vec2 :=
  ⟨math.cos angle, math.sin angle⟩

/-- Port of `LineSegment` from track.ts (`end` renamed `endp`). -/
structure LineSegment where
  start : Vec2
  endp : Vec2
deriving DecidableEq

/-- Port of `Checkpoint` from track.ts: a segment plus its ordinal index. -/
structure Checkpoint where
  segment : LineSegment
  index : ℕ
deriving DecidableEq

/-- Port of `Track` from track.ts. -/
structure Track where
  name : String
  outerBoundary : List LineSegment
  innerBoundary : List LineSegment
  checkpoints : List Checkpoint
  startPosition : Vec2
  startRotation : ℚ
deriving DecidableEq

/-- Port of `lineSegmentIntersection` from collision.ts: parametric line-line solve.
Returns the intersection point, or `none` when the directions' cross product
has magnitude below `1e-10` (treated as parallel) or a parameter leaves
`[0,1]`. -/
def lineSegmentIntersection (seg1 seg2 : LineSegment) : Option Vec2 :=
  let p := seg1.start
  let r := subtract seg1.endp seg1.start
  let q := seg2.start
  let s := subtract seg2.endp seg2.start
  let rxs := cross r s
  let qmp := subtract q p
  let qmpxr := cross qmp r
  if |rxs| < 1e-10 then none
  else
    let t := cross qmp s / rxs
    let u := qmpxr / rxs
    if 0 ≤ t ∧ t ≤ 1 ∧ 0 ≤ u ∧ u ≤ 1 then
      some ⟨p.x + t * r.x, p.y + t * r.y⟩
    else none

/-- The parameter `t` solved by `lineSegmentIntersection` (position along
`seg1`), written out as in collision.ts: `cross(q - p, s) / cross(r, s)`. -/
def interT (seg1 seg2 : LineSegment) : ℚ :=
  cross (subtract seg2.start seg1.start) (subtract seg2.endp seg2.start) /
    cross (subtract seg1.endp seg1.start) (subtract seg2.endp seg2.start)

/-- The parameter `u` solved by `lineSegmentIntersection` (position along
`seg2`): `cross(q - p, r) / cross(r, s)`. -/
def interU (seg1 seg2 : LineSegment) : ℚ :=
  cross (subtract seg2.start seg1.start) (subtract seg1.endp seg1.start) /
    cross (subtract seg1.endp seg1.start) (subtract seg2.endp seg2.start)

/-- Port of `pointInPolygon` from collision.ts: sign-consistency of successive edge
cross products; fewer than 3 vertices yields `false`.  The source's early
return on a sign mismatch is the same Boolean as requiring every edge's sign
to agree with the first edge's sign. -/
def pointInPolygon (point : Vec2) (polygon : List Vec2) : Bool :=
  let n := polygon.length
  if n < 3 then false
  else
    let signAt : ℕ → Int := fun i =>
      let a := polygon.getD i ⟨0, 0⟩
      let b := polygon.getD ((i + 1) % n) ⟨0, 0⟩
      if 0 < cross (subtract b a) (subtract point a) then 1 else -1
    (List.range n).all fun i => signAt i = signAt 0

/-- Port of `getRotatedRectCorners` from collision.ts: local half-extent corners
rotated by the rotation matrix and translated to world coordinates. -/
def getRotatedRectCorners (math : MathFuns) (center : Vec2)
    (width height rotation : ℚ) : List Vec2 :=
  let c := math.cos rotation
  let s := math.sin rotation
  let hw := width / 2
  let hh := height / 2
  let localCorners : List Vec2 := [⟨-hw, -hh⟩, ⟨hw, -hh⟩, ⟨hw, hh⟩, ⟨-hw, hh⟩]
  localCorners.map fun corner =>
    ⟨center.x + corner.x * c - corner.y * s,
     center.y + corner.x * s + corner.y * c⟩

/-- Port of `rectangleIntersectsLine` from collision.ts: any of the four edges
intersects the segment (JS truthiness of the returned point object is
`Option.isSome`), or the segment's start point is inside the polygon of
corners. -/
def rectangleIntersectsLine (math : MathFuns) (center : Vec2)
    (width height rotation : ℚ) (line : LineSegment) : Bool :=
  let corners := getRotatedRectCorners math center width height rotation
  (((List.range 4).any fun i =>
      (lineSegmentIntersection
        ⟨corners.getD i ⟨0, 0⟩, corners.getD ((i + 1) % 4) ⟨0, 0⟩⟩
        line).isSome)) ||
    pointInPolygon line.start corners

/-- Port of `CarState` from car.ts. -/
structure CarState where
  position : Vec2
  rotation : ℚ
  velocity : Vec2
  angularVelocity : ℚ
deriving DecidableEq

/-- The `Partial<CarState>` update record taken by `updateCarState`. -/
structure CarStateUpdate where
  position : Option Vec2 := none
  rotation : Option ℚ := none
  velocity : Option Vec2 := none
  angularVelocity : Option ℚ := none

/-- Port of `updateCarState` from car.ts: each field falls back to the old state via
`??`, modelled by `Option.getD`. -/
def updateCarState (state : CarState) (updates : CarStateUpdate) : CarState :=
  { position := updates.position.getD state.position
    rotation := updates.rotation.getD state.rotation
    velocity := updates.velocity.getD state.velocity
    angularVelocity := updates.angularVelocity.getD state.angularVelocity }

/-- Port of `getCarSpeed` from car.ts: `Math.sqrt(vx*vx + vy*vy)` with the external
square root. -/
def getCarSpeed (math : MathFuns) (state : CarState) : ℚ :=
  math.sqrt (state.velocity.x * state.velocity.x +
    state.velocity.y * state.velocity.y)

/-- Port of `InputCommand` from input.ts. -/
structure InputCommand where
  throttle : ℚ
  brake : ℚ
  steering : ℚ
deriving DecidableEq

/-- Port of `INPUT_NONE` from input.ts. -/
def INPUT_NONE : InputCommand := ⟨0, 0, 0⟩

/-- Port of `createInputCommand` from input.ts: clamps throttle and brake into
`[0,1]` and steering into `[-1,1]` via `Math.max` / `Math.min`. -/
def createInputCommand (throttle brake steering : ℚ) : InputCommand :=
  { throttle := max 0 (min 1 throttle)
    brake := max 0 (min 1 brake)
    steering := max (-1) (min 1 steering) }

/-- Port of `LapProgress` from game.ts; `Set<number>` becomes `Finset ℕ`. -/
structure LapProgress where
  lastCheckpointIndex : ℕ
  checkpointsPassed : Finset ℕ
deriving DecidableEq

/-- Port of `LapTime` from game.ts. -/
structure LapTime where
  lapNumber : ℕ
  timeMs : ℚ
deriving DecidableEq

/-- Port of `TimingState` from game.ts. -/
structure TimingState where
  raceStartTime : ℚ
  lapStartTime : ℚ
  lapTimes : List LapTime
  currentLap : ℕ
deriving DecidableEq

/-- Port of `GameStatus` from game.ts. -/
inductive GameStatus where
  | countdown
  | racing
  | finished
deriving DecidableEq

/-- Port of `GameState` from game.ts. -/
structure GameState where
  status : GameStatus
  car : CarState
  track : Track
  lapProgress : LapProgress
  timing : TimingState
  totalLaps : ℕ
  tick : ℕ
deriving DecidableEq

/-- The `Partial<GameState>` update record taken by `updateGameState`. -/
structure GameStateUpdate where
  status : Option GameStatus := none
  car : Option CarState := none
  track : Option Track := none
  lapProgress : Option LapProgress := none
  timing : Option TimingState := none
  totalLaps : Option ℕ := none
  tick : Option ℕ := none

/-- Port of `updateGameState` from game.ts: `??` fallbacks field by field. -/
def updateGameState (state : GameState) (updates : GameStateUpdate) : GameState :=
  { status := updates.status.getD state.status
    car := updates.car.getD state.car
    track := updates.track.getD state.track
    lapProgress := updates.lapProgress.getD state.lapProgress
    timing := updates.timing.getD state.timing
    totalLaps := updates.totalLaps.getD state.totalLaps
    tick := updates.tick.getD state.tick }

/-- Port of `PhysicsConfig` from physics-engine.ts. -/
structure PhysicsConfig where
  maxSpeed : ℚ
  maxReverseSpeed : ℚ
  acceleration : ℚ
  brakeAcceleration : ℚ
  friction : ℚ
  steeringRate : ℚ
  minSteeringSpeed : ℚ
deriving DecidableEq

/-- Port of `calculateThrottleEffect` from simple-physics.ts. -/
def calculateThrottleEffect (currentSpeed throttle deltaTime acceleration : ℚ) : ℚ :=
  if throttle ≤ 0 then currentSpeed
  else currentSpeed + acceleration * throttle * deltaTime

/-- Port of `calculateBrakeEffect` from simple-physics.ts. -/
def calculateBrakeEffect (currentSpeed brake deltaTime brakeAcceleration
    minSteeringSpeed : ℚ) : ℚ :=
  if brake ≤ 0 then currentSpeed
  else
    let brakeForce := brakeAcceleration * brake * deltaTime
    if minSteeringSpeed < currentSpeed then max 0 (currentSpeed - brakeForce)
    else if currentSpeed < -minSteeringSpeed then min 0 (currentSpeed + brakeForce)
    else
      let reverseForce := brakeAcceleration * brake * deltaTime * 0.5
      currentSpeed - reverseForce

/-- Port of `calculateFrictionEffect` from simple-physics.ts. -/
def calculateFrictionEffect (currentSpeed throttle brake deltaTime friction : ℚ) : ℚ :=
  if throttle ≠ 0 ∨ brake ≠ 0 then currentSpeed
  else
    let frictionForce := friction * deltaTime
    if |currentSpeed| < frictionForce then 0
    else if 0 < currentSpeed then currentSpeed - frictionForce
    else currentSpeed + frictionForce

/-- Port of `clampSpeed` from simple-physics.ts:
`Math.max(-maxReverseSpeed, Math.min(maxSpeed, speed))`. -/
def clampSpeed (speed maxSpeed maxReverseSpeed : ℚ) : ℚ :=
  max (-maxReverseSpeed) (min maxSpeed speed)

namespace SimplePhysicsEngine

/-- Port of `SimplePhysicsEngine.getSignedSpeed`: velocity magnitude, zeroed below a
`0.001` threshold, negated when the velocity is anti-aligned with the
forward vector (`alignment >= 0 ? speed : -speed`). -/
def getSignedSpeed (math : MathFuns) (car : CarState) (forward : Vec2) : ℚ :=
  let speed := getCarSpeed math car
  if speed < 0.001 then 0
  else
    let alignment := dot car.velocity forward
    if 0 ≤ alignment then speed else -speed

/-- Port of `SimplePhysicsEngine.updateRotation`: no steering below the minimum
steering speed; otherwise turn by steering × rate × speedFactor × dt, with
the direction inverted in reverse. -/
def updateRotation (config : PhysicsConfig) (rotation speed steering deltaTime : ℚ) : ℚ :=
  if |speed| < config.minSteeringSpeed then rotation
  else
    let speedFactor := min 1 (|speed| / (config.maxSpeed * 0.5))
    let steeringAmount := steering * config.steeringRate * speedFactor * deltaTime
    let direction : ℚ := if 0 ≤ speed then 1 else -1
    rotation + steeringAmount * direction

/-- Port of `SimplePhysicsEngine.updateSpeed`: the ordered throttle → brake →
friction → clamp pipeline. -/
def updateSpeed (config : PhysicsConfig) (currentSpeed throttle brake deltaTime : ℚ) : ℚ :=
  let afterThrottle := calculateThrottleEffect currentSpeed throttle deltaTime
    config.acceleration
  let afterBrake := calculateBrakeEffect afterThrottle brake deltaTime
    config.brakeAcceleration config.minSteeringSpeed
  let afterFriction := calculateFrictionEffect afterBrake throttle brake deltaTime
    config.friction
  clampSpeed afterFriction config.maxSpeed config.maxReverseSpeed

/-- Port of `SimplePhysicsEngine.update` from simple-physics.ts: one physics tick. -/
def update (math : MathFuns) (config : PhysicsConfig) (car : CarState)
    (input : InputCommand) (deltaTime : ℚ) : CarState :=
  let forward := fromAngle math car.rotation
  let currentSpeed := getSignedSpeed math car forward
  let newRotation := updateRotation config car.rotation currentSpeed
    input.steering deltaTime
  let newSpeed := updateSpeed config currentSpeed input.throttle input.brake deltaTime
  let newForward := fromAngle math newRotation
  let newVelocity := scale newForward newSpeed
  let newPosition := add car.position (scale newVelocity deltaTime)
  updateCarState car
    { position := some newPosition
      rotation := some newRotation
      velocity := some newVelocity }

end SimplePhysicsEngine

/-- Port of `crossesCheckpoint` from lap-tracker.ts: the movement segment intersects
the checkpoint's segment. -/
def crossesCheckpoint (oldPos newPos : Vec2) (checkpoint : Checkpoint) : Bool :=
  (lineSegmentIntersection ⟨oldPos, newPos⟩ checkpoint.segment).isSome

/-- The record returned by `processCheckpointCross`. -/
structure CrossResult where
  progress : LapProgress
  timing : TimingState
  raceFinished : Bool
deriving DecidableEq

/-- Port of `processCheckpointCross` from lap-tracker.ts.  `now` is the
`performance.now()` value read at the lap-completion branch. -/
def processCheckpointCross (now : ℚ) (progress : LapProgress) (timing : TimingState)
    (checkpoint : Checkpoint) (totalCheckpoints totalLaps : ℕ) : CrossResult :=
  let checkpointIndex := checkpoint.index
  if checkpointIndex = 0 then
    let allOthersPassed := (List.range (totalCheckpoints - 1)).all
      fun i => decide ((i + 1) ∈ progress.checkpointsPassed)
    if allOthersPassed then
      let lapTime : LapTime := ⟨timing.currentLap, now - timing.lapStartTime⟩
      let newLapTimes := timing.lapTimes ++ [lapTime]
      let raceFinished := decide (totalLaps ≤ timing.currentLap)
      { progress := ⟨0, {0}⟩
        timing := { timing with
          lapTimes := newLapTimes
          lapStartTime := now
          currentLap := timing.currentLap + 1 }
        raceFinished := raceFinished }
    else ⟨progress, timing, false⟩
  else if checkpointIndex ∈ progress.checkpointsPassed then
    ⟨progress, timing, false⟩
  else if checkpointIndex ≠ (progress.lastCheckpointIndex + 1) % totalCheckpoints then
    ⟨progress, timing, false⟩
  else
    ⟨⟨checkpointIndex, insert checkpointIndex progress.checkpointsPassed⟩,
      timing, false⟩

/-- Port of `LapUpdateResult` from lap-tracker.ts. -/
structure LapUpdateResult where
  lapProgress : LapProgress
  timing : TimingState
  raceFinished : Bool
deriving DecidableEq

/-- Port of `updateLapProgress` from lap-tracker.ts: fold over the checkpoint list,
processing each crossed checkpoint against the progressively updated
progress/timing; `raceFinished` is overwritten by each processed crossing. -/
def updateLapProgress (now : ℚ) (progress : LapProgress) (timing : TimingState)
    (checkpoints : List Checkpoint) (oldPos newPos : Vec2)
    (totalLaps : ℕ) : LapUpdateResult :=
  checkpoints.foldl
    (fun acc checkpoint =>
      if crossesCheckpoint oldPos newPos checkpoint then
        let result := processCheckpointCross now acc.lapProgress acc.timing
          checkpoint checkpoints.length totalLaps
        ⟨result.progress, result.timing, result.raceFinished⟩
      else acc)
    ⟨progress, timing, false⟩

/-- Port of `GameLoop.step` from game-loop.ts.  The physics engine is a constructor
parameter of `GameLoop` (interface `PhysicsEngine`), so it appears here as
the function argument `phys`; `tickDuration` is the fixed dt and `now` the
clock value read inside the lap tracker. -/
def GameLoop.step (phys : CarState → InputCommand → ℚ → CarState)
    (tickDuration now : ℚ) (state : GameState) (input : InputCommand) : GameState :=
  if state.status ≠ GameStatus.racing then state
  else
    let newCar := phys state.car input tickDuration
    let result := updateLapProgress now state.lapProgress state.timing
      state.track.checkpoints state.car.position newCar.position state.totalLaps
    updateGameState state
      { car := some newCar
        lapProgress := some result.lapProgress
        timing := some result.timing
        tick := some (state.tick + 1)
        status := some (if result.raceFinished then GameStatus.finished
          else GameStatus.racing) }

/-! ## Helper lemmas -/

/-- A fold step of `updateLapProgress` skips every checkpoint the movement
does not cross. -/
lemma updateLapProgress_foldl_skip (now : ℚ) (oldPos newPos : Vec2)
    (n totalLaps : ℕ) (l : List Checkpoint) (acc : LapUpdateResult)
    (h : ∀ cp ∈ l, crossesCheckpoint oldPos newPos cp = false) :
    l.foldl
      (fun acc checkpoint =>
        if crossesCheckpoint oldPos newPos checkpoint then
          let result := processCheckpointCross now acc.lapProgress acc.timing
            checkpoint n totalLaps
          ⟨result.progress, result.timing, result.raceFinished⟩
        else acc) acc = acc := by
  induction l generalizing acc with
  | nil => rfl
  | cons hd tl ih =>
    rw [List.foldl_cons, if_neg (by simp [h hd (List.mem_cons_self hd tl)])]
    exact ih acc fun cp hcp => h cp (List.mem_cons_of_mem hd hcp)

/-! ## Claims -/

/-- C10: `createInputCommand` clamps throttle and brake into `[0,1]` and
steering into `[-1,1]` for all real (rational) arguments. -/
theorem C10_createInputCommand_clamps (throttle brake steering : ℚ) :
    0 ≤ (createInputCommand throttle brake steering).throttle ∧
    (createInputCommand throttle brake steering).throttle ≤ 1 ∧
    0 ≤ (createInputCommand throttle brake steering).brake ∧
    (createInputCommand throttle brake steering).brake ≤ 1 ∧
    -1 ≤ (createInputCommand throttle brake steering).steering ∧
    (createInputCommand throttle brake steering).steering ≤ 1 := by
  unfold createInputCommand
  exact ⟨le_max_left 0 _, max_le zero_le_one (min_le_left 1 _),
    le_max_left 0 _, max_le zero_le_one (min_le_left 1 _),
    le_max_left (-1) _, max_le (by norm_num) (min_le_left 1 _)⟩

/-- C3: when the game status is not `racing`, `GameLoop.step` returns the
state unchanged, for every physics engine, tick duration, clock value and
input; in particular every tick after `finished` is a no-op. -/
theorem C3_step_noop_when_not_racing
    (phys : CarState → InputCommand → ℚ → CarState) (tickDuration now : ℚ)
    (state : GameState) (input : InputCommand)
    (h : state.status ≠ GameStatus.racing) :
    GameLoop.step phys tickDuration now state input = state := by
  simp [GameLoop.step, h]

/-- Witness for C3: a concrete `finished` state is returned unchanged. -/
theorem C3_witness :
    GameLoop.step (fun car _ _ => car) (1/60) 0
      ⟨GameStatus.finished, ⟨⟨0, 0⟩, 0, ⟨0, 0⟩, 0⟩,
       ⟨"oval", [], [], [], ⟨0, 0⟩, 0⟩, ⟨0, {0}⟩, ⟨0, 0, [], 1⟩, 3, 42⟩
      INPUT_NONE =
    ⟨GameStatus.finished, ⟨⟨0, 0⟩, 0, ⟨0, 0⟩, 0⟩,
      ⟨"oval", [], [], [], ⟨0, 0⟩, 0⟩, ⟨0, {0}⟩, ⟨0, 0, [], 1⟩, 3, 42⟩ :=
  C3_step_noop_when_not_racing (fun car _ _ => car) (1/60) 0
    ⟨GameStatus.finished, ⟨⟨0, 0⟩, 0, ⟨0, 0⟩, 0⟩,
      ⟨"oval", [], [], [], ⟨0, 0⟩, 0⟩, ⟨0, {0}⟩, ⟨0, 0, [], 1⟩, 3, 42⟩
    INPUT_NONE (by decide)

/-- C2: processing a crossing of a non-zero checkpoint `i` leaves progress
and timing unchanged when `i` is already passed, or when `i` is not
`(lastCheckpointIndex + 1) % totalCheckpoints`; in the remaining case the
only change is adding `i` to the passed set and setting
`lastCheckpointIndex := i`, with timing untouched and no finish signal.
Consequently crossing `k+2` while `lastCheckpointIndex = k` never advances
`lastCheckpointIndex` past `k`. -/
theorem C2_nonzero_checkpoint_rules (now : ℚ) (progress : LapProgress)
    (timing : TimingState) (cp : Checkpoint) (totalCheckpoints totalLaps : ℕ)
    (h0 : cp.index ≠ 0) :
    (cp.index ∈ progress.checkpointsPassed →
      processCheckpointCross now progress timing cp totalCheckpoints totalLaps =
        ⟨progress, timing, false⟩) ∧
    (cp.index ≠ (progress.lastCheckpointIndex + 1) % totalCheckpoints →
      processCheckpointCross now progress timing cp totalCheckpoints totalLaps =
        ⟨progress, timing, false⟩) ∧
    (cp.index ∉ progress.checkpointsPassed →
      cp.index = (progress.lastCheckpointIndex + 1) % totalCheckpoints →
      processCheckpointCross now progress timing cp totalCheckpoints totalLaps =
        ⟨⟨cp.index, insert cp.index progress.checkpointsPassed⟩, timing, false⟩) ∧
    (∀ k, progress.lastCheckpointIndex = k → cp.index = k + 2 →
      (processCheckpointCross now progress timing cp
        totalCheckpoints totalLaps).progress.lastCheckpointIndex = k) := by
  refine ⟨fun hmem => ?_, fun hne => ?_, fun hmem hexp => ?_, fun k hk hi => ?_⟩
  · simp [processCheckpointCross, h0, hmem]
  · by_cases hmem : cp.index ∈ progress.checkpointsPassed
    · simp [processCheckpointCross, h0, hmem]
    · simp [processCheckpointCross, h0, hmem, hne]
  · simp only [processCheckpointCross]
    rw [if_neg h0, if_neg hmem, if_neg (not_not_intro hexp)]
  · have hne : ¬(cp.index = (k + 1) % totalCheckpoints) := by
      have h2 := Nat.mod_le (k + 1) totalCheckpoints
      omega
    by_cases hmem : cp.index ∈ progress.checkpointsPassed
    · simp [processCheckpointCross, h0, hmem, hk]
    · simp [processCheckpointCross, h0, hmem, hne, hk]

/-- Witness for C2: crossing checkpoint 1 right after checkpoint 0 adds it
to the passed set. -/
theorem C2_witness :
    processCheckpointCross 5 ⟨0, {0}⟩ ⟨0, 0, [], 1⟩
      ⟨⟨⟨100, 0⟩, ⟨100, 100⟩⟩, 1⟩ 3 3 =
    ⟨⟨1, insert 1 {0}⟩, ⟨0, 0, [], 1⟩, false⟩ :=
  (C2_nonzero_checkpoint_rules 5 ⟨0, {0}⟩ ⟨0, 0, [], 1⟩
    ⟨⟨⟨100, 0⟩, ⟨100, 100⟩⟩, 1⟩ 3 3 (by decide)).2.2.1 (by decide) (by decide)

/-- C1 (amended): if the movement crosses the start/finish checkpoint
(index 0, listed first in the track's checkpoint list) and no other
checkpoint, and every checkpoint `1..N-1` is in the passed set, then
`updateLapProgress` appends exactly one lap record
`{lapNumber := currentLap, timeMs := now - lapStartTime}`, resets progress
to `{lastCheckpointIndex := 0, passed := {0}}`, increments `currentLap`,
sets `lapStartTime := now`, and reports `raceFinished` exactly when the
pre-increment `currentLap ≥ totalLaps`. -/
theorem C1_lap_completion (now : ℚ) (progress : LapProgress)
    (timing : TimingState) (cp0 : Checkpoint) (rest : List Checkpoint)
    (oldPos newPos : Vec2) (totalLaps : ℕ)
    (hidx : cp0.index = 0)
    (hcross : crossesCheckpoint oldPos newPos cp0 = true)
    (hrest : ∀ cp ∈ rest, crossesCheckpoint oldPos newPos cp = false)
    (hall : ∀ i ∈ List.range ((cp0 :: rest).length - 1),
      (i + 1) ∈ progress.checkpointsPassed) :
    updateLapProgress now progress timing (cp0 :: rest) oldPos newPos totalLaps =
      ⟨⟨0, {0}⟩,
       ⟨timing.raceStartTime, now,
        timing.lapTimes ++ [⟨timing.currentLap, now - timing.lapStartTime⟩],
        timing.currentLap + 1⟩,
       decide (totalLaps ≤ timing.currentLap)⟩ := by
  unfold updateLapProgress
  rw [List.foldl_cons, if_pos (by simp [hcross])]
  have hproc : processCheckpointCross now progress timing cp0
      (cp0 :: rest).length totalLaps =
      ⟨⟨0, {0}⟩,
       ⟨timing.raceStartTime, now,
        timing.lapTimes ++ [⟨timing.currentLap, now - timing.lapStartTime⟩],
        timing.currentLap + 1⟩,
       decide (totalLaps ≤ timing.currentLap)⟩ := by
    have hallb : ((List.range ((cp0 :: rest).length - 1)).all
        fun i => decide ((i + 1) ∈ progress.checkpointsPassed)) = true := by
      rw [List.all_eq_true]
      intro i hi
      exact decide_eq_true (hall i hi)
    simp only [processCheckpointCross]
    rw [if_pos hidx, if_pos hallb]
  rw [hproc]
  exact updateLapProgress_foldl_skip now oldPos newPos (cp0 :: rest).length
    totalLaps rest _ hrest

/-- Witness for C1: crossing only the start/finish line with checkpoints 1
and 2 already passed completes lap 1 of 3 (not finishing the race). -/
theorem C1_witness :
    updateLapProgress 42 ⟨2, {0, 1, 2}⟩ ⟨0, 0, [], 1⟩
      [⟨⟨⟨0, 0⟩, ⟨0, 100⟩⟩, 0⟩, ⟨⟨⟨100, 0⟩, ⟨100, 100⟩⟩, 1⟩,
       ⟨⟨⟨200, 0⟩, ⟨200, 100⟩⟩, 2⟩]
      ⟨-5, 50⟩ ⟨5, 50⟩ 3 =
    ⟨⟨0, {0}⟩, ⟨0, 42, [⟨1, 42⟩], 2⟩, false⟩ := by
  have h := C1_lap_completion 42 ⟨2, {0, 1, 2}⟩ ⟨0, 0, [], 1⟩
    ⟨⟨⟨0, 0⟩, ⟨0, 100⟩⟩, 0⟩
    [⟨⟨⟨100, 0⟩, ⟨100, 100⟩⟩, 1⟩, ⟨⟨⟨200, 0⟩, ⟨200, 100⟩⟩, 2⟩]
    ⟨-5, 50⟩ ⟨5, 50⟩ 3 rfl
    (by norm_num [crossesCheckpoint, lineSegmentIntersection, cross, subtract])
    (by
      intro cp hcp
      simp only [List.mem_cons, List.not_mem_nil, or_false] at hcp
      rcases hcp with rfl | rfl <;>
        norm_num [crossesCheckpoint, lineSegmentIntersection, cross, subtract])
    (by decide)
  simpa using h

/-- Counterexample to C1 as stated: a single movement that crosses the
start/finish line and also checkpoint 1 in the same tick.  The lap is
completed and exactly one record appended, but the subsequent checkpoint-1
crossing mutates the freshly reset progress to `{0,1}` and overwrites the
finish signal with `false`, even though the pre-increment `currentLap = 1`
equals `totalLaps = 1` and the claim demands `raceFinished = true` and final
progress `{0}`. -/
theorem C1_counterexample :
    crossesCheckpoint ⟨-5, 50⟩ ⟨110, 50⟩ ⟨⟨⟨0, 0⟩, ⟨0, 100⟩⟩, 0⟩ = true ∧
    (∀ i ∈ List.range 2, (i + 1) ∈ ({0, 1, 2} : Finset ℕ)) ∧
    1 ≤ (1 : ℕ) ∧
    updateLapProgress 1000 ⟨2, {0, 1, 2}⟩ ⟨0, 0, [], 1⟩
      [⟨⟨⟨0, 0⟩, ⟨0, 100⟩⟩, 0⟩, ⟨⟨⟨100, 0⟩, ⟨100, 100⟩⟩, 1⟩,
       ⟨⟨⟨200, 0⟩, ⟨200, 100⟩⟩, 2⟩]
      ⟨-5, 50⟩ ⟨110, 50⟩ 1 =
    ⟨⟨1, {0, 1}⟩, ⟨0, 1000, [⟨1, 1000⟩], 2⟩, false⟩ := by
  refine ⟨?_, by decide, le_refl 1, ?_⟩
  · norm_num [crossesCheckpoint, lineSegmentIntersection, cross, subtract]
  · norm_num +decide [updateLapProgress, processCheckpointCross,
      crossesCheckpoint, lineSegmentIntersection, cross, subtract]

/-- Trajectory of repeated `SimplePhysicsEngine.update` calls at a fixed dt,
one state per tick (the per-tick trajectory of the game loop's physics). -/
def simTrajectory (math : MathFuns) (config : PhysicsConfig) (deltaTime : ℚ)
    (car : CarState) : List InputCommand → List CarState
  | [] => [car]
  | input :: rest =>
    car :: simTrajectory math config deltaTime
      (SimplePhysicsEngine.update math config car input deltaTime) rest

/-- A concrete math-function instance satisfying `cos² + sin² = 1`,
used to instantiate witnesses. -/
def flatMath : MathFuns := ⟨fun _ => 1, fun _ => 0, fun _ => 0⟩

/-- C4: `SimplePhysicsEngine.update` is deterministic — it is a pure
function of car state, input and dt (and the fixed math library), with no
clock read or randomness in the embedding, so identical initial states and
identical input sequences produce identical per-tick trajectories. -/
theorem C4_update_deterministic (math : MathFuns) (config : PhysicsConfig)
    (dt : ℚ) (car1 car2 : CarState) (inputs1 inputs2 : List InputCommand)
    (hcar : car1 = car2) (hin : inputs1 = inputs2) :
    (∀ input1 input2 : InputCommand, input1 = input2 →
      SimplePhysicsEngine.update math config car1 input1 dt =
        SimplePhysicsEngine.update math config car2 input2 dt) ∧
    simTrajectory math config dt car1 inputs1 =
      simTrajectory math config dt car2 inputs2 := by
  subst hcar
  subst hin
  exact ⟨fun input1 input2 h => by rw [h], rfl⟩

/-- Witness for C4: a concrete two-run trajectory comparison. -/
theorem C4_witness :
    simTrajectory flatMath ⟨100, 50, 50, 100, 10, 2, 5⟩ (1/60)
      ⟨⟨100, 100⟩, 0, ⟨0, 0⟩, 0⟩ [⟨1, 0, 0⟩, ⟨1, 0, 0⟩] =
    simTrajectory flatMath ⟨100, 50, 50, 100, 10, 2, 5⟩ (1/60)
      ⟨⟨100, 100⟩, 0, ⟨0, 0⟩, 0⟩ [⟨1, 0, 0⟩, ⟨1, 0, 0⟩] :=
  (C4_update_deterministic flatMath ⟨100, 50, 50, 100, 10, 2, 5⟩ (1/60)
    ⟨⟨100, 100⟩, 0, ⟨0, 0⟩, 0⟩ ⟨⟨100, 100⟩, 0, ⟨0, 0⟩, 0⟩
    [⟨1, 0, 0⟩, ⟨1, 0, 0⟩] [⟨1, 0, 0⟩, ⟨1, 0, 0⟩] rfl rfl).2

/-- The squared length of a velocity rebuilt as `forward × speed` is exactly
`speed²` when the trig functions satisfy the unit-circle identity. -/
lemma lengthSquared_scale_fromAngle (math : MathFuns)
    (hUnit : ∀ a : ℚ, math.cos a ^ 2 + math.sin a ^ 2 = 1) (a k : ℚ) :
    lengthSquared (scale (fromAngle math a) k) = k ^ 2 := by
  simp only [lengthSquared, scale, fromAngle]
  linear_combination k ^ 2 * hUnit a

/-- C5: the speed pipeline ends in `clampSpeed`, so every speed it produces
lies in `[-maxReverseSpeed, maxSpeed]` (for a config with nonnegative
bounds), and hence the squared velocity magnitude of every state produced
by `SimplePhysicsEngine.update` is at most
`max maxSpeed maxReverseSpeed ^ 2` — under any input. -/
theorem C5_speed_bound (math : MathFuns) (config : PhysicsConfig)
    (hUnit : ∀ a : ℚ, math.cos a ^ 2 + math.sin a ^ 2 = 1)
    (hMax : 0 ≤ config.maxSpeed) (hRev : 0 ≤ config.maxReverseSpeed)
    (car : CarState) (input : InputCommand) (dt : ℚ) :
    (∀ s throttle brake : ℚ,
      -config.maxReverseSpeed ≤ SimplePhysicsEngine.updateSpeed config s throttle brake dt ∧
      SimplePhysicsEngine.updateSpeed config s throttle brake dt ≤ config.maxSpeed) ∧
    lengthSquared (SimplePhysicsEngine.update math config car input dt).velocity ≤
      max config.maxSpeed config.maxReverseSpeed ^ 2 := by
  have hclamp : ∀ s throttle brake : ℚ,
      -config.maxReverseSpeed ≤ SimplePhysicsEngine.updateSpeed config s throttle brake dt ∧
      SimplePhysicsEngine.updateSpeed config s throttle brake dt ≤ config.maxSpeed := by
    intro s throttle brake
    unfold SimplePhysicsEngine.updateSpeed clampSpeed
    exact ⟨le_max_left _ _,
      max_le (le_trans (neg_nonpos.mpr hRev) hMax) (min_le_left _ _)⟩
  refine ⟨hclamp, ?_⟩
  have hv : (SimplePhysicsEngine.update math config car input dt).velocity =
      scale (fromAngle math (SimplePhysicsEngine.updateRotation config car.rotation
        (SimplePhysicsEngine.getSignedSpeed math car (fromAngle math car.rotation))
        input.steering dt))
        (SimplePhysicsEngine.updateSpeed config
          (SimplePhysicsEngine.getSignedSpeed math car (fromAngle math car.rotation))
          input.throttle input.brake dt) := rfl
  rw [hv, lengthSquared_scale_fromAngle math hUnit]
  obtain ⟨h1, h2⟩ := hclamp
    (SimplePhysicsEngine.getSignedSpeed math car (fromAngle math car.rotation))
    input.throttle input.brake
  have hkM : SimplePhysicsEngine.updateSpeed config
      (SimplePhysicsEngine.getSignedSpeed math car (fromAngle math car.rotation))
      input.throttle input.brake dt ≤ max config.maxSpeed config.maxReverseSpeed :=
    le_trans h2 (le_max_left _ _)
  have hMk : -(max config.maxSpeed config.maxReverseSpeed) ≤
      SimplePhysicsEngine.updateSpeed config
        (SimplePhysicsEngine.getSignedSpeed math car (fromAngle math car.rotation))
        input.throttle input.brake dt :=
    le_trans (neg_le_neg (le_max_right _ _)) h1
  nlinarith [hkM, hMk]

/-- Witness for C5: a concrete update's velocity obeys the squared bound. -/
theorem C5_witness :
    lengthSquared (SimplePhysicsEngine.update flatMath ⟨100, 50, 50, 100, 10, 2, 5⟩
        ⟨⟨100, 100⟩, 0, ⟨20, 0⟩, 0⟩ ⟨1, 0, 0⟩ (1/60)).velocity ≤
      max (100 : ℚ) 50 ^ 2 :=
  (C5_speed_bound flatMath ⟨100, 50, 50, 100, 10, 2, 5⟩
    (fun a => by norm_num [flatMath]) (by norm_num) (by norm_num)
    ⟨⟨100, 100⟩, 0, ⟨20, 0⟩, 0⟩ ⟨1, 0, 0⟩ (1/60)).2

/-- C9 (amended): `getSignedSpeed` returns the velocity magnitude signed by
the alignment with the forward vector — `+speed` when
`dot(velocity, forward) ≥ 0`, `-speed` when the dot product is negative —
except that any magnitude below the `0.001` dead-zone threshold yields
exactly `0`. -/
theorem C9_signed_speed (math : MathFuns) (car : CarState) (forward : Vec2) :
    (getCarSpeed math car < 0.001 →
      SimplePhysicsEngine.getSignedSpeed math car forward = 0) ∧
    (0.001 ≤ getCarSpeed math car →
      (0 ≤ dot car.velocity forward →
        SimplePhysicsEngine.getSignedSpeed math car forward =
          getCarSpeed math car) ∧
      (dot car.velocity forward < 0 →
        SimplePhysicsEngine.getSignedSpeed math car forward =
          -getCarSpeed math car)) := by
  refine ⟨fun h => ?_, fun h => ⟨fun hd => ?_, fun hd => ?_⟩⟩
  · simp [SimplePhysicsEngine.getSignedSpeed, h]
  · simp [SimplePhysicsEngine.getSignedSpeed, not_lt.mpr h, hd]
  · simp [SimplePhysicsEngine.getSignedSpeed, not_lt.mpr h, not_le.mpr hd]

/-- Witness for C9: a resting car has signed speed 0. -/
theorem C9_witness :
    SimplePhysicsEngine.getSignedSpeed flatMath ⟨⟨0, 0⟩, 0, ⟨0, 0⟩, 0⟩ ⟨1, 0⟩ = 0 :=
  (C9_signed_speed flatMath ⟨⟨0, 0⟩, 0, ⟨0, 0⟩, 0⟩ ⟨1, 0⟩).1
    (by norm_num [getCarSpeed, flatMath])

/-- A math instance whose `sqrt` is exact at the probed input
`|v|² = 1/4000000` (so `sqrt |v|² = 1/2000`), for the C9 counterexample. -/
def cexMath : MathFuns :=
  ⟨fun _ => 1, fun _ => 0, fun q => if q = 1 / 4000000 then 1 / 2000 else 0⟩

/-- Counterexample to C9 as stated: a slow forward-rolling car with velocity
`(0.0003, 0.0004)` (true magnitude `0.0005`, aligned with forward, so the
claim demands signed speed `+0.0005`) gets signed speed `0` from the code's
`speed < 0.001` dead-zone.  The first two conjuncts certify that `cexMath`'s
square root is the true square root at the probed value. -/
theorem C9_counterexample :
    cexMath.sqrt ((3/10000 : ℚ) * (3/10000) + (4/10000) * (4/10000)) ^ 2 =
      (3/10000 : ℚ) * (3/10000) + (4/10000) * (4/10000) ∧
    0 ≤ cexMath.sqrt ((3/10000 : ℚ) * (3/10000) + (4/10000) * (4/10000)) ∧
    0 ≤ dot (⟨3/10000, 4/10000⟩ : Vec2) (fromAngle cexMath 0) ∧
    SimplePhysicsEngine.getSignedSpeed cexMath
        ⟨⟨0, 0⟩, 0, ⟨3/10000, 4/10000⟩, 0⟩ (fromAngle cexMath 0) ≠
      getCarSpeed cexMath ⟨⟨0, 0⟩, 0, ⟨3/10000, 4/10000⟩, 0⟩ := by
  norm_num [cexMath, SimplePhysicsEngine.getSignedSpeed, getCarSpeed, dot,
    fromAngle]

/-- Below the `1e-10` parallel threshold the intersection is `none`. -/
lemma inter_eq_none_of_parallel (seg1 seg2 : LineSegment)
    (h : |cross (subtract seg1.endp seg1.start) (subtract seg2.endp seg2.start)| <
      1e-10) :
    lineSegmentIntersection seg1 seg2 = none := by
  simp only [lineSegmentIntersection]
  rw [if_pos h]

/-- At or above the threshold, the intersection is determined by the range
tests on the solved parameters `interT` and `interU`. -/
lemma inter_eq_of_not_parallel (seg1 seg2 : LineSegment)
    (h : (1e-10 : ℚ) ≤
      |cross (subtract seg1.endp seg1.start) (subtract seg2.endp seg2.start)|) :
    lineSegmentIntersection seg1 seg2 =
      if 0 ≤ interT seg1 seg2 ∧ interT seg1 seg2 ≤ 1 ∧
          0 ≤ interU seg1 seg2 ∧ interU seg1 seg2 ≤ 1 then
        some ⟨seg1.start.x + interT seg1 seg2 * (subtract seg1.endp seg1.start).x,
              seg1.start.y + interT seg1 seg2 * (subtract seg1.endp seg1.start).y⟩
      else none := by
  simp only [lineSegmentIntersection, interT, interU]
  rw [if_neg (not_lt.mpr h)]

/-- C6: `lineSegmentIntersection` returns a point iff the direction
cross-product magnitude is at least `1e-10` and both solved parameters lie
in `[0,1]` inclusive (so segments under the threshold give `none` even when
collinear-overlapping, and touching endpoints count); any returned point
equals `seg1.start + t * (seg1.end - seg1.start)`. -/
theorem C6_intersection_conditions (seg1 seg2 : LineSegment) :
    ((lineSegmentIntersection seg1 seg2).isSome = true ↔
      ((1e-10 : ℚ) ≤
        |cross (subtract seg1.endp seg1.start) (subtract seg2.endp seg2.start)| ∧
       0 ≤ interT seg1 seg2 ∧ interT seg1 seg2 ≤ 1 ∧
       0 ≤ interU seg1 seg2 ∧ interU seg1 seg2 ≤ 1)) ∧
    ∀ pt, lineSegmentIntersection seg1 seg2 = some pt →
      pt = add seg1.start (scale (subtract seg1.endp seg1.start)
        (interT seg1 seg2)) := by
  by_cases h : |cross (subtract seg1.endp seg1.start)
      (subtract seg2.endp seg2.start)| < 1e-10
  · rw [inter_eq_none_of_parallel seg1 seg2 h]
    exact ⟨by simp [not_le.mpr h], fun pt hpt => absurd hpt (by simp)⟩
  · have h' := not_lt.mp h
    rw [inter_eq_of_not_parallel seg1 seg2 h']
    constructor
    · split_ifs with hc
      · simp [h', hc]
      · simp [hc]
    · intro pt hpt
      split_ifs at hpt with hc
      have hpt' := Option.some.inj hpt
      rw [← hpt']
      simp only [add, scale, subtract, Vec2.mk.injEq]
      constructor <;> ring

/-- Witness for C6: a concrete crossing pair, its returned point matching
the parametric formula. -/
theorem C6_witness :
    lineSegmentIntersection ⟨⟨0, 0⟩, ⟨10, 0⟩⟩ ⟨⟨5, -5⟩, ⟨5, 5⟩⟩ = some ⟨5, 0⟩ ∧
    (⟨5, 0⟩ : Vec2) = add (⟨0, 0⟩ : Vec2) (scale (subtract ⟨10, 0⟩ ⟨0, 0⟩)
      (interT ⟨⟨0, 0⟩, ⟨10, 0⟩⟩ ⟨⟨5, -5⟩, ⟨5, 5⟩⟩)) :=
  ⟨by norm_num [lineSegmentIntersection, cross, subtract],
   (C6_intersection_conditions ⟨⟨0, 0⟩, ⟨10, 0⟩⟩ ⟨⟨5, -5⟩, ⟨5, 5⟩⟩).2 ⟨5, 0⟩
     (by norm_num [lineSegmentIntersection, cross, subtract])⟩

/-- The 2D cross product is antisymmetric. -/
lemma cross_swap (a b : Vec2) : cross b a = -cross a b := by
  simp only [cross]
  ring

/-- Reversing a difference negates its cross product with anything. -/
lemma cross_sub_swap_left (x y z : Vec2) :
    cross (subtract x y) z = -cross (subtract y x) z := by
  simp only [cross, subtract]
  ring

/-- Swapping the segments turns parameter `t` into parameter `u`. -/
lemma interT_swap (A B : LineSegment) : interT B A = interU A B := by
  unfold interT interU
  rw [cross_sub_swap_left A.start B.start,
    cross_swap (subtract A.endp A.start) (subtract B.endp B.start),
    neg_div_neg_eq]

/-- Swapping the segments turns parameter `u` into parameter `t`. -/
lemma interU_swap (A B : LineSegment) : interU B A = interT A B := by
  unfold interT interU
  rw [cross_sub_swap_left A.start B.start,
    cross_swap (subtract A.endp A.start) (subtract B.endp B.start),
    neg_div_neg_eq]

/-- In exact arithmetic the two parametric forms of the intersection point
coincide whenever the denominator is nonzero. -/
lemma inter_point_swap (A B : LineSegment)
    (h : cross (subtract A.endp A.start) (subtract B.endp B.start) ≠ 0) :
    (⟨A.start.x + interT A B * (subtract A.endp A.start).x,
      A.start.y + interT A B * (subtract A.endp A.start).y⟩ : Vec2) =
    ⟨B.start.x + interU A B * (subtract B.endp B.start).x,
      B.start.y + interU A B * (subtract B.endp B.start).y⟩ := by
  obtain ⟨⟨a1, a2⟩, b1, b2⟩ := A
  obtain ⟨⟨c1, c2⟩, d1, d2⟩ := B
  unfold interT interU
  simp only [cross, subtract] at *
  rw [Vec2.mk.injEq]
  constructor <;> (field_simp; ring)

/-- C7: `lineSegmentIntersection` is symmetric — the two argument orders
agree on whether an intersection exists, and when both return a point the
points are equal (exactly, in the rational embedding). -/
theorem C7_intersection_symmetric (A B : LineSegment) :
    ((lineSegmentIntersection A B).isSome = (lineSegmentIntersection B A).isSome) ∧
    ∀ p q : Vec2, lineSegmentIntersection A B = some p →
      lineSegmentIntersection B A = some q → p = q := by
  have habs : |cross (subtract B.endp B.start) (subtract A.endp A.start)| =
      |cross (subtract A.endp A.start) (subtract B.endp B.start)| := by
    rw [cross_swap, abs_neg]
  by_cases h : |cross (subtract A.endp A.start)
      (subtract B.endp B.start)| < 1e-10
  · rw [inter_eq_none_of_parallel A B h,
      inter_eq_none_of_parallel B A (by rw [habs]; exact h)]
    exact ⟨rfl, fun p q hp _ => absurd hp (by simp)⟩
  · have h' := not_lt.mp h
    have hne : cross (subtract A.endp A.start) (subtract B.endp B.start) ≠ 0 := by
      intro h0
      rw [h0] at h'
      norm_num at h'
    rw [inter_eq_of_not_parallel A B h',
      inter_eq_of_not_parallel B A (by rw [habs]; exact h'),
      interT_swap A B, interU_swap A B]
    have hcond : (0 ≤ interU A B ∧ interU A B ≤ 1 ∧
        0 ≤ interT A B ∧ interT A B ≤ 1) ↔
        (0 ≤ interT A B ∧ interT A B ≤ 1 ∧
          0 ≤ interU A B ∧ interU A B ≤ 1) := by tauto
    rw [if_congr hcond rfl rfl]
    constructor
    · split_ifs <;> rfl
    · intro p q hp hq
      split_ifs at hp hq with hc
      rw [← Option.some.inj hp, ← Option.some.inj hq]
      exact inter_point_swap A B hne

/-- Witness for C7: two concrete diagonal segments intersect at the same
point in both argument orders. -/
theorem C7_witness :
    lineSegmentIntersection ⟨⟨0, 0⟩, ⟨2, 2⟩⟩ ⟨⟨0, 2⟩, ⟨2, 0⟩⟩ = some ⟨1, 1⟩ ∧
    lineSegmentIntersection ⟨⟨0, 2⟩, ⟨2, 0⟩⟩ ⟨⟨0, 0⟩, ⟨2, 2⟩⟩ = some ⟨1, 1⟩ ∧
    (⟨1, 1⟩ : Vec2) = ⟨1, 1⟩ := by
  refine ⟨?_, ?_, ?_⟩
  · norm_num [lineSegmentIntersection, cross, subtract]
  · norm_num [lineSegmentIntersection, cross, subtract]
  · exact (C7_intersection_symmetric ⟨⟨0, 0⟩, ⟨2, 2⟩⟩ ⟨⟨0, 2⟩, ⟨2, 0⟩⟩).2 ⟨1, 1⟩
      ⟨1, 1⟩ (by norm_num [lineSegmentIntersection, cross, subtract])
      (by norm_num [lineSegmentIntersection, cross, subtract])

/-- C8: `rectangleIntersectsLine` is true exactly when the segment
intersects one of the four rectangle edges or the segment's *start* point
lies inside the rectangle; the end point is never separately tested. -/
theorem C8_rectangle_line_start_only (math : MathFuns) (center : Vec2)
    (width height rotation : ℚ) (line : LineSegment) :
    rectangleIntersectsLine math center width height rotation line = true ↔
      ((∃ i < 4, (lineSegmentIntersection
          ⟨(getRotatedRectCorners math center width height rotation).getD i ⟨0, 0⟩,
           (getRotatedRectCorners math center width height rotation).getD
             ((i + 1) % 4) ⟨0, 0⟩⟩
          line).isSome = true) ∨
        pointInPolygon line.start
          (getRotatedRectCorners math center width height rotation) = true) := by
  simp [rectangleIntersectsLine, List.any_eq_true, List.mem_range]
